import Mathlib

/-!
Shallow embedding of the ro-crate-zip-explorer ZIP reading core
(src/zip/zipService.ts, src/explorer.ts, src/utils.ts).

Byte buffers are `List Nat` (each element a byte value); DataView reads
become little-endian arithmetic on the list; fallible TypeScript code
(functions that `throw`) returns `Except ZipError _`.
-/

namespace RoCrateZip

/-- One byte of a buffer.  A DataView read that is fully in bounds returns the
stored bytes, which this models; an out-of-bounds DataView read throws a
RangeError instead, which this does NOT model (it reads 0).  Accordingly the
theorems below rely on `byteAt` only at in-bounds indices and none of them
describes the out-of-bounds error path. -/
def byteAt (data : List Nat) (i : Nat) : Nat := data.getD i 0

/-- `DataView.getUint16(off, true)` : little-endian 16-bit read. -/
def readU16 (data : List Nat) (off : Nat) : Nat :=
  byteAt data off + 256 * byteAt data (off + 1)

/-- `DataView.getUint32(off, true)` : little-endian 32-bit read. -/
def readU32 (data : List Nat) (off : Nat) : Nat :=
  byteAt data off + 256 * byteAt data (off + 1)
    + 65536 * byteAt data (off + 2) + 16777216 * byteAt data (off + 3)

/-- `DataView.getBigUint64(off, true)` : little-endian 64-bit read (the source
converts the resulting bigint back with `Number`, exact on the values used). -/
def readU64 (data : List Nat) (off : Nat) : Nat :=
  readU32 data off + 4294967296 * readU32 data (off + 4)

/-- `buffer.slice(start, stop)` : bytes in `[start, stop)`, clamped to the buffer. -/
def sliceBytes (data : List Nat) (start stop : Nat) : List Nat :=
  (data.take stop).drop start

/-- `getRange(start, length)` as realised by both byte sources: the bytes in
`[start, start+length)`, possibly fewer when the source is shorter. -/
def getRangeBytes (data : List Nat) (start len : Nat) : List Nat :=
  (data.drop start).take len

/-- `new TextDecoder().decode(bytes)` restricted to ASCII content: each byte
becomes the character of its code point.  All names considered in this
development are ASCII, where this agrees with UTF-8 decoding. -/
def decodeBytes (bs : List Nat) : String :=
  String.mk (bs.map Char.ofNat)

/-- JavaScript's `String.prototype.endsWith`, as a suffix test on the
character sequence (JavaScript compares code-unit sequences; every path in
this development is ASCII, where the two notions agree). -/
def jsEndsWith (s searchString : String) : Bool :=
  searchString.data.isSuffixOf s.data

/-- The error conditions the ZIP reading core can signal (each `throw` site in
the source gets one constructor). -/
inductive ZipError where
  | invalidCentralDirectorySignature
  | invalidZip64ExtraFieldSignature
  | cannotExtractDirectory
  | fileDataSizeMismatch
  | unsupportedCompression (method : Nat)
  | eocdNotFound
  | headFetchFailed
  | rangeProbeFailed
deriving Repr, DecidableEq

/-- Entry kind, decided by whether the stored path ends with a slash. -/
inductive EntryType where
  | File
  | Directory
deriving Repr, DecidableEq, BEq

/-- The six arguments the source passes to the JavaScript `Date` constructor in
`decodeDateTime` (year, 0-based month index, day, hour, minute, second); the
`Date` normalisation itself is outside the model. -/
structure DateArgs where
  year : Nat
  monthIndex : Int
  day : Nat
  hour : Nat
  minute : Nat
  second : Nat
deriving Repr, DecidableEq

/-- `decodeDateTime` of `AbstractZipService`: extracts, LSB first, bit fields of
widths 5, 6, 5, 5, 4, 7 from the 32-bit DOS value (the source's `getBits`
mask-and-shift loop computes exactly these quotient/remainder chains for every
32-bit input) and passes `(year + 1980, mon - 1, day, hour, mins, sec)` to the
`Date` constructor. -/
def decodeDateTime (dateTime : Nat) : DateArgs :=
  let sec := dateTime % 32
  let r1 := dateTime / 32
  let mins := r1 % 64
  let r2 := r1 / 64
  let hour := r2 % 32
  let r3 := r2 / 32
  let day := r3 % 32
  let r4 := r3 / 32
  let mon := r4 % 16
  let r5 := r4 / 16
  let year := r5 % 128
  { year := year + 1980
    monthIndex := (mon : Int) - 1
    day := day
    hour := hour
    minute := mins
    second := sec }

/-- Result record of `parseCentralDirectoryFileHeader`. -/
structure ParsedCentralDirectoryFileHeader where
  fileName : String
  dateTime : Nat
  crc32 : Nat
  headerOffset : Nat
  compressionMethod : Nat
  compressedSize : Nat
  uncompressedSize : Nat
  nextOffset : Nat
deriving Repr, DecidableEq

/-- The three 64-bit values of a ZIP64 extra field record. -/
structure Zip64ExtraField where
  uncompressedSize : Nat
  compressedSize : Nat
  headerOffset : Nat
deriving Repr, DecidableEq

/-- The extra-field block of the entry whose central-directory record starts at
`offset`: the `extraFieldLength` bytes following the file name
(`extraFieldStart = fileNameEndOffset`, `extraFieldEnd = start + length`). -/
def extraFieldBlock (data : List Nat) (offset : Nat) : List Nat :=
  sliceBytes data (offset + 46 + readU16 data (offset + 28))
    (offset + 46 + readU16 data (offset + 28) + readU16 data (offset + 30))

/-- Inner `parseZip64ExtraField` of `parseCentralDirectoryFileHeader`: requires
the block to begin with the `0x0001` signature, then reads the 64-bit
uncompressed size at 4, compressed size at 12 and header offset at 20. -/
def parseZip64ExtraField (extraFieldData : List Nat) : Except ZipError Zip64ExtraField :=
  if readU16 extraFieldData 0 ≠ 1 then
    .error .invalidZip64ExtraFieldSignature
  else
    .ok { uncompressedSize := readU64 extraFieldData 4
          compressedSize := readU64 extraFieldData 12
          headerOffset := readU64 extraFieldData 20 }

/-- `parseCentralDirectoryFileHeader` (the current `zipService.ts` version):
verifies the `0x02014b50` signature, decodes the little-endian fields, and,
when the 32-bit local-header offset is `0xffffffff`, replaces the header
offset, compressed size and uncompressed size together with the 64-bit values
of the ZIP64 extra field. -/
def parseCentralDirectoryFileHeader (data : List Nat) (offset : Nat) :
    Except ZipError ParsedCentralDirectoryFileHeader :=
  if readU32 data offset ≠ 0x02014b50 then
    .error .invalidCentralDirectorySignature
  else if readU32 data (offset + 42) = 0xffffffff then
    match parseZip64ExtraField (extraFieldBlock data offset) with
    | .error e => .error e
    | .ok zip64ExtraField =>
      .ok { fileName := decodeBytes (sliceBytes data (offset + 46)
              (offset + 46 + readU16 data (offset + 28)))
            dateTime := readU32 data (offset + 12)
            crc32 := readU32 data (offset + 16)
            headerOffset := zip64ExtraField.headerOffset
            compressionMethod := readU16 data (offset + 10)
            compressedSize := zip64ExtraField.compressedSize
            uncompressedSize := zip64ExtraField.uncompressedSize
            nextOffset := 46 + readU16 data (offset + 28) + readU16 data (offset + 30)
              + readU16 data (offset + 32) }
  else
    .ok { fileName := decodeBytes (sliceBytes data (offset + 46)
            (offset + 46 + readU16 data (offset + 28)))
          dateTime := readU32 data (offset + 12)
          crc32 := readU32 data (offset + 16)
          headerOffset := readU32 data (offset + 42)
          compressionMethod := readU16 data (offset + 10)
          compressedSize := readU32 data (offset + 20)
          uncompressedSize := readU32 data (offset + 24)
          nextOffset := 46 + readU16 data (offset + 28) + readU16 data (offset + 30)
            + readU16 data (offset + 32) }

/-- A ZIP entry record as built by `createZipEntry` (the `data()` closure of
file entries is realised by `extractFile` below and carried implicitly). -/
structure ZipEntry where
  path : String
  headerOffset : Nat
  compressionMethod : Nat
  compressSize : Nat
  fileSize : Nat
  dateTime : DateArgs
  type : EntryType
  isCompressed : Bool
deriving Repr, DecidableEq

/-- `createZipEntry`: wraps a parsed central-directory header into an entry;
the kind is `Directory` exactly when the decoded path ends with a slash. -/
def createZipEntry (hdr : ParsedCentralDirectoryFileHeader) : ZipEntry :=
  { path := hdr.fileName
    headerOffset := hdr.headerOffset
    compressionMethod := hdr.compressionMethod
    compressSize := hdr.compressedSize
    fileSize := hdr.uncompressedSize
    dateTime := decodeDateTime hdr.dateTime
    type := if jsEndsWith hdr.fileName "/" then .Directory else .File
    isCompressed := hdr.compressedSize ≠ hdr.uncompressedSize }

/-- The loop body of `getZipEntries`: starting at `offset`, parse one
central-directory record at a time and advance by its `nextOffset` until the
buffer is exhausted (each record spans at least its fixed 46 bytes, which is
what makes the source's `while` loop terminate). -/
def getZipEntriesFrom (data : List Nat) (offset : Nat) :
    Except ZipError (List ZipEntry) :=
  if h : offset < data.length then
    match hp : parseCentralDirectoryFileHeader data offset with
    | .error e => .error e
    | .ok hdr =>
      match getZipEntriesFrom data (offset + hdr.nextOffset) with
      | .error e => .error e
      | .ok rest => .ok (createZipEntry hdr :: rest)
  else
    .ok []
termination_by data.length - offset
decreasing_by
  unfold parseCentralDirectoryFileHeader at hp
  split at hp
  · exact absurd hp (by simp)
  · split at hp
    · split at hp
      · exact absurd hp (by simp)
      · injection hp with hp; subst hp; simp; omega
    · injection hp with hp; subst hp; simp; omega

/-- Executable companion of `getZipEntriesFrom` by structural recursion on a
fuel bound; `getZipEntriesFrom_eq_fuel` below shows they agree whenever the
fuel covers the remaining buffer, so concrete runs can be computed. -/
def getZipEntriesFuel (data : List Nat) : Nat → Nat → Except ZipError (List ZipEntry)
  | 0, _ => .ok []
  | fuel + 1, offset =>
    if offset < data.length then
      match parseCentralDirectoryFileHeader data offset with
      | .error e => .error e
      | .ok hdr =>
        match getZipEntriesFuel data fuel (offset + hdr.nextOffset) with
        | .error e => .error e
        | .ok rest => .ok (createZipEntry hdr :: rest)
    else
      .ok []

/-- `getZipEntries`: all entries of a central-directory buffer, in order. -/
def getZipEntries (centralDirectoryData : List Nat) : Except ZipError (List ZipEntry) :=
  getZipEntriesFrom centralDirectoryData 0

/-- `calculateFileDataOffset`: read the 30-byte local file header at the
entry's header offset, decode the local name and extra lengths, and return
`headerOffset + 30 + fileNameLength + extraFieldLength`. -/
def calculateFileDataOffset (archive : List Nat) (file : ZipEntry) : Nat :=
  let localHeaderData := getRangeBytes archive file.headerOffset 30
  file.headerOffset + 30 + readU16 localHeaderData 26 + readU16 localHeaderData 28

/-- `extractFile`, parametrised by the raw-DEFLATE decoder `inflateRaw`
(pako's, an external collaborator): rejects directories, reads
`compressSize` bytes at the computed data offset, fails when a positive
expected size is not met, then dispatches on the compression method. -/
def extractFile (inflateRaw : List Nat → List Nat) (archive : List Nat)
    (file : ZipEntry) : Except ZipError (List Nat) :=
  if file.type = .Directory then
    .error .cannotExtractDirectory
  else
    let fileData := getRangeBytes archive (calculateFileDataOffset archive file) file.compressSize
    if file.compressSize > 0 ∧ fileData.length ≠ file.compressSize then
      .error .fileDataSizeMismatch
    else if file.compressionMethod = 0 then
      .ok fileData
    else if file.compressionMethod = 8 then
      .ok (inflateRaw fileData)
    else
      .error (.unsupportedCompression file.compressionMethod)

/-- The `findFileByName` closure placed on the archive handle by `open`:
the first entry that is a `File` and whose path ends with the given name. -/
def findFileByName (entries : List ZipEntry) (fileName : String) : Option ZipEntry :=
  entries.find? (fun file => file.type == EntryType.File && jsEndsWith file.path fileName)

/-- `ROCrateZipExplorer.hasCrate`:
`Boolean(archive.findFileByName("ro-crate-metadata.json"))`. -/
def hasCrate (entries : List ZipEntry) : Bool :=
  (findFileByName entries "ro-crate-metadata.json").isSome

/-- The ZIP64 End of Central Directory Locator record. -/
structure Zip64EOCDLocator where
  diskNumber : Nat
  eocdStartOffset : Nat
  totalNumberOfDisks : Nat
deriving Repr, DecidableEq

/-- The backward scan of `findEndOfCentralDirectoryOffset`, from `start`
down to 0, looking for the `0x06054b50` signature. -/
def findEOCDScan (data : List Nat) : Nat → Except ZipError Nat
  | 0 => if readU32 data 0 = 0x06054b50 then .ok 0 else .error .eocdNotFound
  | o + 1 =>
    if readU32 data (o + 1) = 0x06054b50 then .ok (o + 1) else findEOCDScan data o

/-- `findEndOfCentralDirectoryOffset` of `EndOfCentralDirectoryData`: scan
backward from `byteLength - 22`; when the window holds fewer than 22 bytes the
loop never runs and the EOCD is reported missing. -/
def findEndOfCentralDirectoryOffset (data : List Nat) : Except ZipError Nat :=
  if data.length < 22 then .error .eocdNotFound
  else findEOCDScan data (data.length - 22)

/-- `readZip64Locator`: look 20 bytes before the EOCD; when that position is
negative return nothing at once (without touching the buffer), otherwise
return the locator record when the `0x07064b50` signature is there. -/
def readZip64Locator (data : List Nat) (eocdOffset : Nat) : Option Zip64EOCDLocator :=
  if (eocdOffset : Int) - 20 < 0 then
    none
  else
    let locatorOffset := eocdOffset - 20
    if readU32 data locatorOffset = 0x07064b50 then
      some { diskNumber := readU32 data (locatorOffset + 4)
             eocdStartOffset := readU64 data (locatorOffset + 8)
             totalNumberOfDisks := readU32 data (locatorOffset + 16) }
    else
      none

/-- Relevant data of the `EndOfCentralDirectoryData` object (the raw window
is passed alongside where the source keeps its `dataView`). -/
structure EOCDData where
  offset : Nat
  isZip64 : Bool
deriving Repr, DecidableEq

/-- The `EndOfCentralDirectoryData` constructor: locate the EOCD record and
set `isZip64` to whether the ZIP64 locator is present before it. -/
def mkEOCDData (data : List Nat) : Except ZipError EOCDData :=
  match findEndOfCentralDirectoryOffset data with
  | .error e => .error e
  | .ok offset => .ok { offset := offset, isZip64 := (readZip64Locator data offset).isSome }

/-- The archive handle built by `AbstractZipService.open` (its
`findFileByName` closure is `findFileByName` applied to `entries`). -/
structure ZipArchive where
  entries : List ZipEntry
  size : Nat
  isZip64 : Bool
deriving Repr, DecidableEq

/-- `AbstractZipService.open` with the service's `zipSize` passed explicitly:
load the trailing EOCD window `[max(zipSize - 65536, 0), zipSize)`, build the
EOCD data, read the central-directory offset and size at EOCD+16 / EOCD+12,
fetch that range, parse the entries, and assemble the archive handle. -/
def serviceOpenWithSize (archiveBytes : List Nat) (zipSize : Nat) :
    Except ZipError ZipArchive :=
  let window := getRangeBytes archiveBytes (zipSize - 65536) (min zipSize 65536)
  match mkEOCDData window with
  | .error e => .error e
  | .ok eocd =>
    let cdirOffset := readU32 window (eocd.offset + 16)
    let cdirSize := readU32 window (eocd.offset + 12)
    match getZipEntries (getRangeBytes archiveBytes cdirOffset cdirSize) with
    | .error e => .error e
    | .ok entries => .ok { entries := entries, size := zipSize, isZip64 := eocd.isZip64 }

/-- `open` for the local service, whose `zipSize` is the blob length. -/
def serviceOpen (archiveBytes : List Nat) : Except ZipError ZipArchive :=
  serviceOpenWithSize archiveBytes archiveBytes.length

/-- The headers of a HEAD response consumed by `ensureUrlSupportsRanges`:
`ok` is `response.ok`; `contentLength` is the Content-Length header already
decoded to its numeric value, `none` when the header is absent (JavaScript's
`Number(null)` turns the absent case into 0); `acceptRanges` mirrors the
Accept-Ranges header. -/
structure HeadResponse where
  ok : Bool
  contentLength : Option Nat
  acceptRanges : Option String
deriving Repr, DecidableEq

/-- The `bytes=0-0` probe response consulted when Accept-Ranges is missing. -/
structure ProbeResponse where
  ok : Bool
  acceptRanges : Option String
deriving Repr, DecidableEq

/-- The `RangeSupport` record of `utils.ts`. -/
structure RangeSupport where
  acceptRanges : Option String
  contentLength : Nat
deriving Repr, DecidableEq

/-- `ensureUrlSupportsRanges`: fail when HEAD is not ok; compute
`contentLength = Number(headers.get("content-length"))` (0 when absent); when
Accept-Ranges is missing, require the one-byte range probe to succeed and take
its Accept-Ranges header instead. -/
def ensureUrlSupportsRanges (head : HeadResponse) (probe : ProbeResponse) :
    Except ZipError RangeSupport :=
  if ¬head.ok then
    .error .headFetchFailed
  else
    let contentLength := head.contentLength.getD 0
    match head.acceptRanges with
    | some acceptRanges => .ok { acceptRanges := some acceptRanges, contentLength := contentLength }
    | none =>
      if ¬probe.ok then
        .error .rangeProbeFailed
      else
        .ok { acceptRanges := probe.acceptRanges, contentLength := contentLength }

/-- `RemoteZipService.zipSize`: `rangeSupport?.contentLength ?? 0`. -/
def remoteZipSize (rangeSupport : Option RangeSupport) : Nat :=
  (rangeSupport.map RangeSupport.contentLength).getD 0

/-- `open` for the remote service: `doOpen` establishes range support
(redirects already followed), then the shared open procedure runs with
`zipSize` taken from the probed Content-Length. -/
def remoteOpen (head : HeadResponse) (probe : ProbeResponse)
    (remoteBytes : List Nat) : Except ZipError ZipArchive :=
  match ensureUrlSupportsRanges head probe with
  | .error e => .error e
  | .ok rangeSupport => serviceOpenWithSize remoteBytes (remoteZipSize (some rangeSupport))

/-- The `ZipExplorer` state relevant to `open`: the cached archive handle. -/
structure ExplorerState where
  zipArchive : Option ZipArchive
deriving Repr, DecidableEq

/-- `ZipExplorer.open`: when an archive handle is already cached return it
unchanged, otherwise call the service's `open` (modelled by `svc`), cache and
return its result.  The boolean records whether the service was invoked,
i.e. whether any re-parsing happened. -/
def explorerOpen (svc : Unit → ZipArchive) (st : ExplorerState) :
    ZipArchive × ExplorerState × Bool :=
  match st.zipArchive with
  | some archive => (archive, st, false)
  | none =>
    let archive := svc ()
    (archive, { zipArchive := some archive }, true)

/-!  Concrete fixtures used by the counterexamples and witnesses below. -/

/-- A central-directory record (name `"a"`, compression method 8) whose 32-bit
compressed size is the `0xffffffff` sentinel while its 32-bit local-header
offset is 100, carrying a ZIP64 extra field (signature `0x0001`, 64-bit
uncompressed size 7, compressed size 5, header offset 9). -/
def zip64MixedRecord : List Nat :=
  [0x50, 0x4b, 0x01, 0x02,
   0, 0, 0, 0, 0, 0,
   8, 0,
   0, 0, 0, 0,
   0, 0, 0, 0,
   0xff, 0xff, 0xff, 0xff,
   7, 0, 0, 0,
   1, 0,
   28, 0,
   0, 0, 0, 0, 0, 0,
   0, 0, 0, 0,
   100, 0, 0, 0,
   97,
   1, 0, 24, 0,
   7, 0, 0, 0, 0, 0, 0, 0,
   5, 0, 0, 0, 0, 0, 0, 0,
   9, 0, 0, 0, 0, 0, 0, 0]

/-- `zip64MixedRecord` with the 32-bit local-header offset set to the
`0xffffffff` sentinel instead of 100 (everything else unchanged). -/
def zip64SentinelRecord : List Nat :=
  (zip64MixedRecord.take 42) ++ [0xff, 0xff, 0xff, 0xff] ++ (zip64MixedRecord.drop 46)

/-- The per-field ZIP64 promotion behaviour the spec ascribes to the parser,
written out at a record whose extra-field block starts with the `0x0001`
signature (there scanning for the record and assuming it first coincide):
each of the three 32-bit fields is replaced by its 64-bit counterpart exactly
when that individual field is `0xffffffff`. -/
def zip64PerFieldClaimAt (data : List Nat) (offset : Nat) : Prop :=
  readU16 (extraFieldBlock data offset) 0 = 1 →
  ∀ hdr, parseCentralDirectoryFileHeader data offset = .ok hdr →
    hdr.compressedSize = (if readU32 data (offset + 20) = 0xffffffff then
      readU64 (extraFieldBlock data offset) 12 else readU32 data (offset + 20)) ∧
    hdr.uncompressedSize = (if readU32 data (offset + 24) = 0xffffffff then
      readU64 (extraFieldBlock data offset) 4 else readU32 data (offset + 24)) ∧
    hdr.headerOffset = (if readU32 data (offset + 42) = 0xffffffff then
      readU64 (extraFieldBlock data offset) 20 else readU32 data (offset + 42))

/-- One plain central-directory record: name `"a"`, method 0, all sizes and
offsets 0, no extra field, no comment (47 bytes). -/
def dupEntryBytes : List Nat :=
  [0x50, 0x4b, 0x01, 0x02,
   0, 0, 0, 0, 0, 0,
   0, 0,
   0, 0, 0, 0,
   0, 0, 0, 0,
   0, 0, 0, 0,
   0, 0, 0, 0,
   1, 0,
   0, 0,
   0, 0, 0, 0, 0, 0,
   0, 0, 0, 0,
   0, 0, 0, 0,
   97]

/-- A central directory with two records that decode to the same path `"a"`. -/
def dupCentralDirectory : List Nat := dupEntryBytes ++ dupEntryBytes

/-- A complete archive: the duplicate-path central directory at offset 0,
followed by its EOCD record (total 116 bytes, central directory size 94). -/
def dupArchive : List Nat :=
  dupCentralDirectory ++
  [0x50, 0x4b, 0x05, 0x06,
   0, 0, 0, 0,
   2, 0, 2, 0,
   94, 0, 0, 0,
   0, 0, 0, 0,
   0, 0]

/-- The entry both records of `dupCentralDirectory` decode to. -/
def dupEntryVal : ZipEntry :=
  { path := "a", headerOffset := 0, compressionMethod := 0, compressSize := 0,
    fileSize := 0, dateTime := decodeDateTime 0, type := .File, isCompressed := false }

/-- The archive handle `open` builds for `dupArchive`. -/
def dupOpened : ZipArchive :=
  { entries := [dupEntryVal, dupEntryVal], size := 116, isZip64 := false }

/-- A file entry living in a subdirectory whose name is the crate file name. -/
def subCrateEntry : ZipEntry :=
  { path := "sub/ro-crate-metadata.json", headerOffset := 0, compressionMethod := 0,
    compressSize := 10, fileSize := 10, dateTime := decodeDateTime 0,
    type := .File, isCompressed := false }

/-- A crate metadata file entry at the archive root. -/
def rootCrateEntry : ZipEntry :=
  { path := "ro-crate-metadata.json", headerOffset := 0, compressionMethod := 0,
    compressSize := 10, fileSize := 10, dateTime := decodeDateTime 0,
    type := .File, isCompressed := false }

/-- The exact-root-path reading of `hasCrate` that the spec asserts. -/
def hasCrateExactClaim (entries : List ZipEntry) : Prop :=
  hasCrate entries = true ↔
    ∃ e ∈ entries, e.type = EntryType.File ∧ e.path = "ro-crate-metadata.json"

/-- The spec's reading of `decodeDateTime` at one input: the same bit fields,
but with the stored 5-bit seconds value doubled. -/
def decodeDateTimeClaimAt (dt : Nat) : Prop :=
  decodeDateTime dt =
    { year := dt / 33554432 % 128 + 1980
      monthIndex := (dt / 2097152 % 16 : Int) - 1
      day := dt / 65536 % 32
      hour := dt / 2048 % 32
      minute := dt / 32 % 64
      second := 2 * (dt % 32) }

/-- A 33-byte archive: an all-zero 30-byte local file header followed by the
stored bytes `[1, 2, 3]`. -/
def storedArchive : List Nat := List.replicate 30 0 ++ [1, 2, 3]

/-- A stored (method 0) file entry of 3 bytes at offset 0 of `storedArchive`. -/
def storedEntry : ZipEntry :=
  { path := "f", headerOffset := 0, compressionMethod := 0, compressSize := 3,
    fileSize := 3, dateTime := decodeDateTime 0, type := .File, isCompressed := false }

/-- A file entry claiming 5 compressed bytes over an archive holding only 1
byte of file data (`List.replicate 30 0 ++ [1]`). -/
def truncatedEntry : ZipEntry :=
  { path := "t", headerOffset := 0, compressionMethod := 0, compressSize := 5,
    fileSize := 5, dateTime := decodeDateTime 0, type := .File, isCompressed := false }

/-- The archive `truncatedEntry` points into: local header plus one data byte. -/
def truncatedArchive : List Nat := List.replicate 30 0 ++ [1]

/-- A directory entry whose path ends with the searched suffix. -/
def dirJsonEntry : ZipEntry :=
  { path := "d.json", headerOffset := 0, compressionMethod := 0, compressSize := 0,
    fileSize := 0, dateTime := decodeDateTime 0, type := .Directory, isCompressed := false }

/-- A file entry whose path ends with the searched suffix. -/
def fileJsonEntry : ZipEntry :=
  { path := "f.json", headerOffset := 0, compressionMethod := 0, compressSize := 4,
    fileSize := 4, dateTime := decodeDateTime 0, type := .File, isCompressed := false }

/-- A minimal archive handle for the explorer idempotence witness. -/
def emptyArchiveHandle : ZipArchive := { entries := [], size := 0, isZip64 := false }

/-- A window holding exactly a bare 22-byte EOCD record, so the EOCD sits at
offset 0 of the window. -/
def tinyEOCDWindow : List Nat :=
  [0x50, 0x4b, 0x05, 0x06, 0, 0, 0, 0, 0, 0, 0, 0, 0, 0, 0, 0, 0, 0, 0, 0, 0, 0]

/-- A 2xx HEAD response with no Content-Length header but with Accept-Ranges. -/
def headNoLength : HeadResponse :=
  { ok := true, contentLength := none, acceptRanges := some "bytes" }

/-- An arbitrary probe response (unused when Accept-Ranges is present). -/
def probeOk : ProbeResponse := { ok := true, acceptRanges := none }

/-!  Shared lemmas about the embedded operations. -/

theorem entryType_beq_iff (a b : EntryType) : (a == b) = true ↔ a = b := by
  cases a <;> cases b <;> decide

theorem parse_nextOffset (data : List Nat) (offset : Nat)
    (hdr : ParsedCentralDirectoryFileHeader)
    (h : parseCentralDirectoryFileHeader data offset = .ok hdr) :
    hdr.nextOffset = 46 + readU16 data (offset + 28) + readU16 data (offset + 30)
      + readU16 data (offset + 32) := by
  unfold parseCentralDirectoryFileHeader at h
  split at h
  · exact absurd h (by simp)
  · split at h
    · split at h
      · exact absurd h (by simp)
      · injection h with h; subst h; rfl
    · injection h with h; subst h; rfl

theorem parse_error_shape (data : List Nat) (offset : Nat) (e : ZipError)
    (h : parseCentralDirectoryFileHeader data offset = .error e) :
    e = .invalidCentralDirectorySignature ∨ e = .invalidZip64ExtraFieldSignature := by
  unfold parseCentralDirectoryFileHeader at h
  split at h
  · injection h with h; exact Or.inl h.symm
  · split at h
    · unfold parseZip64ExtraField at h
      split at h
      · rename_i e2 heq
        injection h with h
        subst h
        split at heq
        · injection heq with heq2
          exact Or.inr heq2.symm
        · exact absurd heq (by simp)
      · rename_i zf heq
        exact absurd h (by simp)
    · exact absurd h (by simp)

theorem getZipEntriesFrom_eq_fuel (data : List Nat) :
    ∀ (fuel offset : Nat), data.length ≤ offset + 46 * fuel →
    getZipEntriesFrom data offset = getZipEntriesFuel data fuel offset := by
  intro fuel
  induction fuel with
  | zero =>
    intro offset h
    rw [getZipEntriesFrom.eq_def, dif_neg (by omega)]
    rfl
  | succ fuel ih =>
    intro offset h
    rw [getZipEntriesFrom.eq_def]
    conv_rhs => rw [getZipEntriesFuel]
    by_cases ho : offset < data.length
    · rw [dif_pos ho, if_pos ho]
      cases hp : parseCentralDirectoryFileHeader data offset with
      | error e => simp only [hp]
      | ok hdr =>
        simp only [hp]
        have hnext : 46 ≤ hdr.nextOffset := by
          have := parse_nextOffset data offset hdr hp; omega
        rw [ih (offset + hdr.nextOffset) (by omega)]
    · rw [dif_neg ho, if_neg ho]

theorem getZipEntries_eq_fuel (data : List Nat) :
    getZipEntries data = getZipEntriesFuel data data.length 0 := by
  apply getZipEntriesFrom_eq_fuel
  omega

theorem dup_serviceOpen_eval : serviceOpen dupArchive = .ok dupOpened := by
  simp only [serviceOpen, serviceOpenWithSize, getZipEntries_eq_fuel]
  rfl

end RoCrateZip

namespace RoCrateZip

/-- C1 counterexample: at the concrete record `zip64MixedRecord` (32-bit
compressed size `0xffffffff`, 32-bit header offset 100, ZIP64 extra field
carrying 64-bit compressed size 5) the parser keeps the sentinel
`0xffffffff` as the compressed size, so the claimed per-field promotion is
false of the code. -/
theorem zip64_per_field_replacement_refuted : ¬ zip64PerFieldClaimAt zip64MixedRecord 0 := by
  intro h
  have h1 := (h rfl _ rfl).1
  rw [if_pos (show readU32 zip64MixedRecord (0 + 20) = 0xffffffff from rfl)] at h1
  exact absurd h1 (by decide)

/-- C1 (amended): the parser promotes the three fields together, exactly when
the 32-bit header offset is `0xffffffff`; in that case the extra-field block
must begin with the `0x0001` record (fixed offsets 4/12/20), else parsing
fails; when the header offset is not the sentinel all three 32-bit values are
kept as decoded. -/
theorem parse_zip64_all_or_nothing (data : List Nat) (offset : Nat)
    (hsig : readU32 data offset = 0x02014b50) :
    (readU32 data (offset + 42) ≠ 0xffffffff →
      parseCentralDirectoryFileHeader data offset = .ok
        { fileName := decodeBytes (sliceBytes data (offset + 46)
            (offset + 46 + readU16 data (offset + 28)))
          dateTime := readU32 data (offset + 12)
          crc32 := readU32 data (offset + 16)
          headerOffset := readU32 data (offset + 42)
          compressionMethod := readU16 data (offset + 10)
          compressedSize := readU32 data (offset + 20)
          uncompressedSize := readU32 data (offset + 24)
          nextOffset := 46 + readU16 data (offset + 28) + readU16 data (offset + 30)
            + readU16 data (offset + 32) }) ∧
    (readU32 data (offset + 42) = 0xffffffff →
      readU16 (extraFieldBlock data offset) 0 = 1 →
      parseCentralDirectoryFileHeader data offset = .ok
        { fileName := decodeBytes (sliceBytes data (offset + 46)
            (offset + 46 + readU16 data (offset + 28)))
          dateTime := readU32 data (offset + 12)
          crc32 := readU32 data (offset + 16)
          headerOffset := readU64 (extraFieldBlock data offset) 20
          compressionMethod := readU16 data (offset + 10)
          compressedSize := readU64 (extraFieldBlock data offset) 12
          uncompressedSize := readU64 (extraFieldBlock data offset) 4
          nextOffset := 46 + readU16 data (offset + 28) + readU16 data (offset + 30)
            + readU16 data (offset + 32) }) ∧
    (readU32 data (offset + 42) = 0xffffffff →
      readU16 (extraFieldBlock data offset) 0 ≠ 1 →
      parseCentralDirectoryFileHeader data offset = .error .invalidZip64ExtraFieldSignature) := by
  refine ⟨fun h42 => ?_, fun h42 hef => ?_, fun h42 hef => ?_⟩
  · unfold parseCentralDirectoryFileHeader
    rw [if_neg (by simp [hsig]), if_neg h42]
  · unfold parseCentralDirectoryFileHeader parseZip64ExtraField
    rw [if_neg (by simp [hsig]), if_pos h42, if_neg (by simp [hef])]
  · unfold parseCentralDirectoryFileHeader parseZip64ExtraField
    rw [if_neg (by simp [hsig]), if_pos h42, if_pos hef]

/-- Witness for C1 (amended): at `zip64SentinelRecord` (header offset
sentinel, extra field signature `0x0001`) all three fields come from the
extra field: 9, 5 and 7. -/
theorem parse_zip64_all_or_nothing_witness :
    parseCentralDirectoryFileHeader zip64SentinelRecord 0 = .ok
      { fileName := "a", dateTime := 0, crc32 := 0, headerOffset := 9,
        compressionMethod := 8, compressedSize := 5, uncompressedSize := 7,
        nextOffset := 75 } :=
  (parse_zip64_all_or_nothing zip64SentinelRecord 0 rfl).2.1 rfl rfl

/-- C2 counterexample: `dupArchive` holds two central-directory records that
both decode to the path `"a"`, yet `open` succeeds and returns the entry
index (it does not signal a malformed archive). -/
theorem open_duplicate_paths_not_rejected :
    serviceOpen dupArchive = .ok dupOpened ∧
    dupOpened.entries.map ZipEntry.path = ["a", "a"] ∧
    ¬∃ e, serviceOpen dupArchive = .error e := by
  refine ⟨dup_serviceOpen_eval, rfl, ?_⟩
  rintro ⟨e, he⟩
  rw [dup_serviceOpen_eval] at he
  exact absurd he (by simp)

/-- C2 (amended): duplicate paths are not detected: on an archive whose
central directory holds two records decoding to the same path, `open`
succeeds and returns one entry per record, in order, duplicates included —
here both records decode to the path `"a"` and both entries are in the
returned index. -/
theorem duplicate_paths_lead_to_duplicate_entries :
    serviceOpen dupArchive = .ok dupOpened ∧
    dupOpened.entries = [dupEntryVal, dupEntryVal] ∧
    dupEntryVal.path = "a" :=
  ⟨dup_serviceOpen_eval, rfl, rfl⟩

/-- C4 counterexample: at the DOS value 1 the decoder produces a seconds
component of 1, not the doubled 2 the claim requires. -/
theorem decodeDateTime_seconds_not_doubled : ¬ decodeDateTimeClaimAt 1 := by
  unfold decodeDateTimeClaimAt decodeDateTime
  decide

/-- C4 (amended): the decoder extracts the LSB-first bit fields seconds-half
(5 bits), minutes (6), hours (5), day (5), month (4), year (7, offset 1980)
and passes them to the local `Date` constructor unchanged; in particular the
stored 5-bit seconds field is used directly, without doubling. -/
theorem decodeDateTime_bit_fields (dt : Nat) :
    decodeDateTime dt =
      { year := dt / 33554432 % 128 + 1980
        monthIndex := (dt / 2097152 % 16 : Int) - 1
        day := dt / 65536 % 32
        hour := dt / 2048 % 32
        minute := dt / 32 % 64
        second := dt % 32 } := by
  unfold decodeDateTime
  simp only [Nat.div_div_eq_div_mul]
  norm_num

/-- C8: explorer `open` is idempotent: after any `open` call has produced an
archive handle, a subsequent `open` returns that same handle and the same
state without invoking the service again (the boolean is `false`: no
re-parsing). -/
theorem explorerOpen_idempotent (svc : Unit → ZipArchive) (st st2 : ExplorerState)
    (archive : ZipArchive) (reparsed : Bool)
    (h : explorerOpen svc st = (archive, st2, reparsed)) :
    explorerOpen svc st2 = (archive, st2, false) := by
  unfold explorerOpen at h ⊢
  cases hst : st.zipArchive with
  | some a =>
    rw [hst] at h
    injection h with h1 h
    injection h with h2 h3
    subst h1; subst h2
    rw [hst]
  | none =>
    rw [hst] at h
    injection h with h1 h
    injection h with h2 h3
    subst h1; subst h2
    rfl

/-- Witness for C8: a second `open` on an explorer that already holds the
empty archive handle returns it unchanged without re-parsing. -/
theorem explorerOpen_idempotent_witness :
    explorerOpen (fun _ => emptyArchiveHandle) { zipArchive := some emptyArchiveHandle } =
      (emptyArchiveHandle, { zipArchive := some emptyArchiveHandle }, false) :=
  explorerOpen_idempotent (fun _ => emptyArchiveHandle) { zipArchive := none } _ _ _ rfl

/-- C9: when the EOCD offset within the loaded window is smaller than 20,
the ZIP64 locator check is skipped: the result is `none` regardless of the
window contents (no bytes are inspected) and `isZip64` is reported `false`. -/
theorem zip64Locator_skipped_short_window (data altData : List Nat) (eocdOffset : Nat)
    (h : eocdOffset < 20) :
    readZip64Locator data eocdOffset = none ∧
    readZip64Locator data eocdOffset = readZip64Locator altData eocdOffset ∧
    (findEndOfCentralDirectoryOffset data = .ok eocdOffset →
      mkEOCDData data = .ok { offset := eocdOffset, isZip64 := false }) := by
  have hlt : (eocdOffset : Int) - 20 < 0 := by omega
  have h1 : readZip64Locator data eocdOffset = none := by
    unfold readZip64Locator
    rw [if_pos hlt]
  have h2 : readZip64Locator altData eocdOffset = none := by
    unfold readZip64Locator
    rw [if_pos hlt]
  refine ⟨h1, by rw [h1, h2], ?_⟩
  intro hfind
  unfold mkEOCDData
  rw [hfind]
  simp [h1]

/-- Witness for C9: a window holding a bare EOCD record at offset 0 yields
`isZip64 = false`. -/
theorem zip64Locator_skipped_short_window_witness :
    mkEOCDData tinyEOCDWindow = .ok { offset := 0, isZip64 := false } :=
  (zip64Locator_skipped_short_window tinyEOCDWindow [] 0 (by decide)).2.2 rfl

/-- C10: a 2xx HEAD response without a Content-Length header still passes the
range-support check, reporting a total size of 0; `open` then searches a
zero-length trailing window for the EOCD and fails there as a malformed
archive, for any remote content. -/
theorem remote_missing_content_length (head : HeadResponse) (probe : ProbeResponse)
    (remoteBytes : List Nat) (ranges : String)
    (hok : head.ok = true) (hlen : head.contentLength = none)
    (har : head.acceptRanges = some ranges) :
    ensureUrlSupportsRanges head probe =
      .ok { acceptRanges := some ranges, contentLength := 0 } ∧
    remoteOpen head probe remoteBytes = .error .eocdNotFound := by
  have hens : ensureUrlSupportsRanges head probe =
      .ok { acceptRanges := some ranges, contentLength := 0 } := by
    unfold ensureUrlSupportsRanges
    rw [if_neg (by simp [hok]), hlen, har]
    rfl
  refine ⟨hens, ?_⟩
  unfold remoteOpen
  rw [hens]
  rfl

/-- Witness for C10: a concrete ok HEAD response with Accept-Ranges `bytes`
and no Content-Length opens to the EOCD-not-found failure over a 3-byte
remote file. -/
theorem remote_missing_content_length_witness :
    ensureUrlSupportsRanges headNoLength probeOk =
      .ok { acceptRanges := some "bytes", contentLength := 0 } ∧
    remoteOpen headNoLength probeOk [1, 2, 3] = .error .eocdNotFound :=
  remote_missing_content_length headNoLength probeOk [1, 2, 3] "bytes" rfl rfl rfl

end RoCrateZip

namespace RoCrateZip

/-- C3 counterexample: an archive whose only entry is the file
`sub/ro-crate-metadata.json` (the crate file inside a subdirectory, not at
the root) makes `hasCrate` true, so the exact-root-path reading is false of
the code. -/
theorem hasCrate_exact_path_refuted : ¬ hasCrateExactClaim [subCrateEntry] := by
  intro h
  obtain ⟨e, he, htype, hpath⟩ := h.mp rfl
  simp only [List.mem_singleton] at he
  subst he
  exact absurd hpath (by decide)

/-- C3 (amended): after open, `hasCrate` is true exactly when some `File`
entry's path ends with the string `ro-crate-metadata.json` (a suffix match,
which also accepts the crate file inside subdirectories). -/
theorem hasCrate_iff_suffix_match (entries : List ZipEntry) :
    hasCrate entries = true ↔
      ∃ e ∈ entries, e.type = EntryType.File ∧
        jsEndsWith e.path "ro-crate-metadata.json" = true := by
  unfold hasCrate findFileByName
  rw [Option.isSome_iff_exists]
  constructor
  · rintro ⟨e, he⟩
    have hmem := List.mem_of_find?_eq_some he
    have hp := List.find?_some he
    simp only [Bool.and_eq_true, entryType_beq_iff] at hp
    exact ⟨e, hmem, hp.1, hp.2⟩
  · rintro ⟨e, hmem, htype, hsuf⟩
    have hsome : (entries.find? fun file =>
        file.type == EntryType.File && jsEndsWith file.path "ro-crate-metadata.json").isSome := by
      rw [List.find?_isSome]
      refine ⟨e, hmem, ?_⟩
      simp only [Bool.and_eq_true, entryType_beq_iff]
      exact ⟨htype, hsuf⟩
    rw [Option.isSome_iff_exists] at hsome
    exact hsome

/-- Witness for C3 (amended): with the root crate file present, `hasCrate` is
true and the iff yields the matching entry. -/
theorem hasCrate_iff_suffix_match_witness :
    ∃ e ∈ [rootCrateEntry], e.type = EntryType.File ∧
      jsEndsWith e.path "ro-crate-metadata.json" = true :=
  (hasCrate_iff_suffix_match [rootCrateEntry]).mp rfl

/-- C5: for a `File` entry whose size check passes, `extractFile` dispatches
on the compression method: 0 returns the read bytes unchanged, 8 returns
their raw-DEFLATE inflation, and any other method fails with
`unsupportedCompression` carrying the method. -/
theorem extractFile_method_dispatch (inflateRaw : List Nat → List Nat)
    (archive : List Nat) (file : ZipEntry)
    (hfile : file.type = EntryType.File)
    (hsize : ¬(file.compressSize > 0 ∧
      (getRangeBytes archive (calculateFileDataOffset archive file)
        file.compressSize).length ≠ file.compressSize)) :
    (file.compressionMethod = 0 →
      extractFile inflateRaw archive file =
        .ok (getRangeBytes archive (calculateFileDataOffset archive file) file.compressSize)) ∧
    (file.compressionMethod = 8 →
      extractFile inflateRaw archive file =
        .ok (inflateRaw (getRangeBytes archive (calculateFileDataOffset archive file)
          file.compressSize))) ∧
    (file.compressionMethod ≠ 0 → file.compressionMethod ≠ 8 →
      extractFile inflateRaw archive file =
        .error (.unsupportedCompression file.compressionMethod)) := by
  have hdir : ¬file.type = EntryType.Directory := by
    rw [hfile]; decide
  refine ⟨fun h0 => ?_, fun h8 => ?_, fun h0 h8 => ?_⟩
  · simp only [extractFile]
    rw [if_neg hdir, if_neg hsize, if_pos h0]
  · simp only [extractFile]
    rw [if_neg hdir, if_neg hsize, if_neg (by rw [h8]; decide), if_pos h8]
  · simp only [extractFile]
    rw [if_neg hdir, if_neg hsize, if_neg h0, if_neg h8]

/-- Witness for C5: extracting the stored (method 0) 3-byte entry of
`storedArchive` returns the bytes `[1, 2, 3]` unchanged. -/
theorem extractFile_method_dispatch_witness :
    extractFile id storedArchive storedEntry = .ok [1, 2, 3] :=
  (extractFile_method_dispatch id storedArchive storedEntry rfl (by decide)).1 rfl

/-- C6: for a `File` entry, `extractFile` fails with the size-mismatch error
exactly when the declared compressed size is positive and the bytes actually
read at the computed data offset have a different length; in particular a
zero compressed size never produces this failure. -/
theorem extractFile_size_mismatch_iff (inflateRaw : List Nat → List Nat)
    (archive : List Nat) (file : ZipEntry) (hfile : file.type = EntryType.File) :
    extractFile inflateRaw archive file = .error .fileDataSizeMismatch ↔
      (file.compressSize > 0 ∧
        (getRangeBytes archive (calculateFileDataOffset archive file)
          file.compressSize).length ≠ file.compressSize) := by
  have hdir : ¬file.type = EntryType.Directory := by
    rw [hfile]; decide
  simp only [extractFile]
  rw [if_neg hdir]
  constructor
  · intro h
    by_contra hc
    rw [if_neg hc] at h
    split at h
    · exact absurd h (by simp)
    · split at h
      · exact absurd h (by simp)
      · exact absurd h (by simp)
  · intro hc
    rw [if_pos hc]

/-- Witness for C6: an entry declaring 5 compressed bytes over an archive
that only holds 1 byte of file data fails with the size mismatch. -/
theorem extractFile_size_mismatch_iff_witness :
    extractFile id truncatedArchive truncatedEntry = .error .fileDataSizeMismatch :=
  (extractFile_size_mismatch_iff id truncatedArchive truncatedEntry rfl).mpr (by decide)

/-- C7: `findFileByName` returns the first entry in central-directory order
that is a `File` and whose path ends with the suffix; `Directory` entries are
never returned even when their path matches; and it returns nothing exactly
when no `File` entry matches. -/
theorem findFileByName_first_file_suffix (entries : List ZipEntry) (fileName : String) :
    (∀ e, findFileByName entries fileName = some e →
      e.type = EntryType.File ∧ jsEndsWith e.path fileName = true ∧
      ∃ pre post, entries = pre ++ e :: post ∧
        ∀ x ∈ pre, ¬(x.type = EntryType.File ∧ jsEndsWith x.path fileName = true)) ∧
    (findFileByName entries fileName = none ↔
      ∀ e ∈ entries, ¬(e.type = EntryType.File ∧ jsEndsWith e.path fileName = true)) := by
  simp only [findFileByName]
  induction entries with
  | nil =>
    constructor
    · intro e h
      exact absurd h (by simp)
    · simp
  | cons a l ih =>
    by_cases hpa :
      (fun file => file.type == EntryType.File && jsEndsWith file.path fileName) a = true
    · have hpa2 : a.type = EntryType.File ∧ jsEndsWith a.path fileName = true := by
        simpa [Bool.and_eq_true, entryType_beq_iff] using hpa
      constructor
      · intro e h
        rw [List.find?_cons_of_pos
          (p := fun file => file.type == EntryType.File && jsEndsWith file.path fileName)
          l hpa] at h
        injection h with h
        subst h
        exact ⟨hpa2.1, hpa2.2, [], l, rfl, by simp⟩
      · rw [List.find?_cons_of_pos
          (p := fun file => file.type == EntryType.File && jsEndsWith file.path fileName)
          l hpa]
        constructor
        · intro h
          exact absurd h (by simp)
        · intro h
          exact absurd (h a (List.mem_cons_self a l)) (by simp [hpa2.1, hpa2.2])
    · have hpa2 : ¬(a.type = EntryType.File ∧ jsEndsWith a.path fileName = true) := by
        intro hcon
        exact hpa (by simp [Bool.and_eq_true, entryType_beq_iff, hcon.1, hcon.2])
      constructor
      · intro e h
        rw [List.find?_cons_of_neg
          (p := fun file => file.type == EntryType.File && jsEndsWith file.path fileName)
          l hpa] at h
        obtain ⟨ht, hs, pre, post, heq, hpre⟩ := ih.1 e h
        refine ⟨ht, hs, a :: pre, post, by rw [heq]; rfl, ?_⟩
        intro x hx
        rcases List.mem_cons.mp hx with hx | hx
        · subst hx; exact hpa2
        · exact hpre x hx
      · rw [List.find?_cons_of_neg
          (p := fun file => file.type == EntryType.File && jsEndsWith file.path fileName)
          l hpa, ih.2]
        constructor
        · intro h e he
          rcases List.mem_cons.mp he with he | he
          · subst he; exact hpa2
          · exact h e he
        · intro h e he
          exact h e (List.mem_cons_of_mem a he)

/-- Witness for C7: searching `.json` over a directory entry followed by a
file entry returns the file entry (the directory is skipped), and the file
entry is preceded only by non-matching entries. -/
theorem findFileByName_first_file_suffix_witness :
    fileJsonEntry.type = EntryType.File ∧ jsEndsWith fileJsonEntry.path ".json" = true ∧
    ∃ pre post, [dirJsonEntry, fileJsonEntry] = pre ++ fileJsonEntry :: post ∧
      ∀ x ∈ pre, ¬(x.type = EntryType.File ∧ jsEndsWith x.path ".json" = true) :=
  (findFileByName_first_file_suffix [dirJsonEntry, fileJsonEntry] ".json").1 fileJsonEntry rfl

end RoCrateZip
